import Mathlib

/-
  Verification of the Reports_orchestrator repository.

  Shallow embedding of the Python sources:
    src/trash/run_actualization.py            (namespace Act)
    src/backfill_substatus.py                 (namespace BSub)
    src/orchestrator/jobs/get_substatus.py    (namespace OSub)
    src/backfill_ct.py                        (namespace BCt)
    src/orchestrator/jobs/get_ct.py           (namespace OCt)
    src/backfill_compromise_date_from_tags.py (namespace BDate)
    src/backfill_tipo_orden_from_tags.py      (namespace BTipo)
    src/orchestrator/jobs/backfill_tipo_orden_from_tags.py (namespace OTipo)
    src/fetch_dispatches.py                   (namespace Fetch)
    src/run_jobs.py                           (namespace RunJobs)

  Python strings are modelled as lists of characters so that every
  operation reduces in the kernel; Mongo documents are modelled as
  structures whose fields distinguish a missing field from a stored
  null, exactly where the source queries distinguish them.
-/

namespace Reports

/-- A Python string, modelled as its list of characters. -/
abbrev PyStr := List Char

/-- Python scalar values that can occur as codes, tag values and
document fields: None, int, str, float nan, float inf. -/
inductive PyVal where
  | none
  | bool (b : Bool)
  | int (n : Int)
  | str (s : PyStr)
  | nanv
  | infv
deriving DecidableEq

/-- Python whitespace test for a character (space, tab, newline etc.),
as used by str.strip. -/
def is_ws (c : Char) : Bool := c.toNat = 32 || (9 ≤ c.toNat && c.toNat ≤ 13)

/-- Python str.strip(): drop whitespace from both ends. -/
def py_strip (s : PyStr) : PyStr :=
  ((s.dropWhile is_ws).reverse.dropWhile is_ws).reverse

/-- ASCII decimal digit test for a character. -/
def is_digit_ch (c : Char) : Bool := 48 ≤ c.toNat && c.toNat ≤ 57

/-- Python str.isdigit() restricted to ASCII: nonempty and all digits. -/
def py_is_digit (s : PyStr) : Bool := !s.isEmpty && s.all is_digit_ch

/-- Numeric value of an all-digit string, as Python int(s). -/
def digits_to_nat (s : PyStr) : Nat :=
  s.foldl (fun a c => 10 * a + (c.toNat - 48)) 0

/-- Uppercase one ASCII character, as Python str.upper does on ASCII. -/
def up_ch (c : Char) : Char :=
  if 97 ≤ c.toNat && c.toNat ≤ 122 then Char.ofNat (c.toNat - 32) else c

/-- Lowercase one ASCII character, as Python str.lower does on ASCII. -/
def low_ch (c : Char) : Char :=
  if 65 ≤ c.toNat && c.toNat ≤ 90 then Char.ofNat (c.toNat + 32) else c

/-- Python str.upper restricted to ASCII. -/
def py_upper (s : PyStr) : PyStr := s.map up_ch

/-- Python str.lower restricted to ASCII. -/
def py_lower (s : PyStr) : PyStr := s.map low_ch

/-- Decimal rendering of an integer, as Python str(int). -/
def int_to_str (n : Int) : PyStr :=
  if n < 0 then '-' :: Nat.toDigits 10 n.natAbs else Nat.toDigits 10 n.natAbs

/-- Python str() on the modelled scalar values. -/
def py_str : PyVal → PyStr
  | .none => "None".data
  | .bool true => "True".data
  | .bool false => "False".data
  | .int n => int_to_str n
  | .str s => s
  | .nanv => "nan".data
  | .infv => "inf".data

/-- Python truthiness of the modelled scalar values. -/
def py_truthy : PyVal → Bool
  | .none => false
  | .bool b => b
  | .int n => n != 0
  | .str s => !s.isEmpty
  | .nanv => true
  | .infv => true

/-- Python a or b: the first operand when truthy, otherwise the second. -/
def py_or (a b : PyVal) : PyVal := if py_truthy a then a else b

/-- A Mongo document field: either missing from the document or present
with a value (where the value PyVal.none is a stored null). -/
inductive FieldV where
  | missing
  | val (v : PyVal)
deriving DecidableEq

/-- Python dict.get semantics on a document field: None when missing. -/
def getF : FieldV → PyVal
  | .missing => .none
  | .val v => v

/-- One element of a tags list.  A dict-shaped tag stores the values
found under the keys name, Name, value and Value (PyVal.none when the
key is absent); nondict is any list element that is not a dict. -/
inductive TagEntry where
  | dict (nameL nameC valueL valueC : PyVal)
  | nondict
deriving DecidableEq

/-- The tags field of a dispatch document: a list, or any non-list
value (including a missing field). -/
inductive TagsVal where
  | list (l : List TagEntry)
  | notList
deriving DecidableEq

/-- Exceptions raised by the modelled Python code. -/
inductive PyErr where
  | attrError
  | calledProcessErr
deriving DecidableEq

/-! Embedding of src/backfill_substatus.py (the recent-window sub-status
    job, invoked by run_jobs.py). -/

namespace BSub

/-- Embeds is_bad_number of backfill_substatus.py: NaN or infinite. -/
def is_bad_number : PyVal → Bool
  | .nanv => true
  | .infv => true
  | _ => false

/-- Embeds normalize_code of backfill_substatus.py: canonical string,
or none when the code is invalid or empty. -/
def normalize_code (code : PyVal) : Option PyStr :=
  if code = .none then none
  else if is_bad_number code then none
  else
    let s := py_strip (py_str code)
    if s.isEmpty || py_lower s = "nan".data then none
    else some s

/-- Embeds code_variants of backfill_substatus.py: the canonical string
plus the numeric version when all digits.  The Python set is modelled as
the list of the values added to it. -/
def code_variants (code : PyVal) : Option (List PyVal) :=
  match normalize_code code with
  | Option.none => none
  | some norm =>
      some ([PyVal.str norm] ++
        (if py_is_digit norm then [PyVal.int (digits_to_nat norm)] else []))

/-- One row of the SUB_STATUS reference collection, as projected by
lookup_substatus (values are PyVal.none when the column is absent). -/
structure SubRow where
  codigoSub : PyVal
  estadoBeetrack : PyVal
  estadoGuia : PyVal
  cierre : PyVal
deriving DecidableEq

/-- Embeds lookup_substatus of backfill_substatus.py: first row of the
reference table whose code column is among the variants. -/
def lookup_substatus (table : List SubRow) (code : PyVal) : Option SubRow :=
  match code_variants code with
  | Option.none => none
  | some vs => table.find? (fun row => row.codigoSub ∈ vs)

/-- A dispatch document as seen by the sub-status jobs. -/
structure SubDispatch where
  substatusCode : FieldV
  estadoBeetrack : FieldV
  estadoGuia : FieldV
  cierre : FieldV
deriving DecidableEq

/-- Embeds the per-dispatch body of run in backfill_substatus.py
(lines 180-222): unusable code forces the three estado fields to null;
a usable code is looked up, a hit writes the mapping row and a miss
also writes nulls. -/
def run_step (table : List SubRow) (d : SubDispatch) : SubDispatch :=
  let code := getF d.substatusCode
  match normalize_code code with
  | Option.none =>
      { d with estadoBeetrack := .val .none, estadoGuia := .val .none,
               cierre := .val .none }
  | some _ =>
      match lookup_substatus table code with
      | some row =>
          { d with estadoBeetrack := .val row.estadoBeetrack,
                   estadoGuia := .val row.estadoGuia,
                   cierre := .val row.cierre }
      | Option.none =>
          { d with estadoBeetrack := .val .none, estadoGuia := .val .none,
                   cierre := .val .none }

end BSub

/-! Embedding of src/orchestrator/jobs/get_substatus.py (the per-route
    sub-status job driven by run_actualization.py). -/

namespace OSub

/-- Embeds code_variants of orchestrator/jobs/get_substatus.py: the raw
code, its stripped string version, and the numeric version when all
digits; none only when the code is None. -/
def code_variants (code : PyVal) : Option (List PyVal) :=
  if code = .none then none
  else
    let s := py_strip (py_str code)
    some ([code, PyVal.str s] ++
      (if py_is_digit s then [PyVal.int (digits_to_nat s)] else []))

/-- Embeds lookup_substatus of orchestrator/jobs/get_substatus.py. -/
def lookup_substatus (table : List BSub.SubRow) (code : PyVal) :
    Option BSub.SubRow :=
  match code_variants code with
  | Option.none => none
  | some vs => table.find? (fun row => row.codigoSub ∈ vs)

/-- Embeds the selection query of run in
orchestrator/jobs/get_substatus.py: substatus_code not null, and at
least one of the three estado fields missing. -/
def selected (d : BSub.SubDispatch) : Bool :=
  (match d.substatusCode with
   | .val v => v != PyVal.none
   | .missing => false) &&
  (d.estadoBeetrack = .missing || d.estadoGuia = .missing ||
   d.cierre = .missing)

/-- Embeds the per-dispatch body of run in
orchestrator/jobs/get_substatus.py (lines 111-135): on a lookup miss the
dispatch is skipped unchanged; on a hit the three fields are written. -/
def run_step (table : List BSub.SubRow) (d : BSub.SubDispatch) :
    BSub.SubDispatch :=
  match lookup_substatus table (getF d.substatusCode) with
  | Option.none => d
  | some row =>
      { d with estadoBeetrack := .val row.estadoBeetrack,
               estadoGuia := .val row.estadoGuia,
               cierre := .val row.cierre }

end OSub

/-! Embedding of src/backfill_ct.py (the recent-window CT job). -/

namespace BCt

/-- Embeds extract_codcomu_value of backfill_ct.py, scanning the tag
list.  A non-dict element has no get attribute, so reaching it raises
AttributeError; a dict whose name (or Name) value is falsy is skipped;
the first tag named CODCOMU (case-insensitive after stripping) yields
its value (or Value) as a stripped string, None value included. -/
def extract_codcomu_list : List TagEntry → Except PyErr (Option PyStr)
  | [] => .ok none
  | .nondict :: _ => .error .attrError
  | .dict nmL nmC vL vC :: rest =>
      let name := py_or nmL nmC
      if !py_truthy name then extract_codcomu_list rest
      else if py_upper (py_strip (py_str name)) = "CODCOMU".data then
        match py_or vL vC with
        | .none => .ok none
        | w => .ok (some (py_strip (py_str w)))
      else extract_codcomu_list rest

/-- Embeds extract_codcomu_value on a whole document: non-list tags
yield None without scanning. -/
def extract_codcomu_value : TagsVal → Except PyErr (Option PyStr)
  | .notList => .ok none
  | .list l => extract_codcomu_list l

/-- One row of the CT reference collection: the external id column and
the carrier column (PyVal.none when absent). -/
structure CtRow where
  idExt : PyVal
  ctCorresponde : PyVal
deriving DecidableEq

/-- A dispatch document as seen by the CT jobs. -/
structure CtDispatch where
  tags : TagsVal
  rawTags : TagsVal
  ct : FieldV
  ctMatchCodcomu : FieldV
  recent : Bool
deriving DecidableEq

/-- Tally bucket a processed dispatch falls into in the CT jobs. -/
inductive CtOutcome where
  | updated
  | noCode
  | notFound
deriving DecidableEq

/-- Embeds the selection query of run in backfill_ct.py: ct null or
missing, and sync_timestamp within the window. -/
def selected (d : CtDispatch) : Bool :=
  (d.ct = .missing || d.ct = .val PyVal.none) && d.recent

/-- Embeds the per-dispatch body of run in backfill_ct.py
(lines 102-134): no extractable code or no usable mapping row leaves
the document untouched; a hit writes ct and ct_match_codcomu. -/
def run_step (table : List CtRow) (d : CtDispatch) :
    Except PyErr (CtDispatch × CtOutcome) :=
  match extract_codcomu_value d.tags with
  | .error e => .error e
  | .ok extId =>
      match extId with
      | Option.none => .ok (d, .noCode)
      | some s =>
          if s.isEmpty then .ok (d, .noCode)
          else
            match table.find? (fun row => row.idExt = PyVal.str s) with
            | Option.none => .ok (d, .notFound)
            | some row =>
                if !py_truthy row.ctCorresponde then .ok (d, .notFound)
                else
                  .ok ({ d with
                          ct := .val (.str (py_strip (py_str row.ctCorresponde))),
                          ctMatchCodcomu := .val (.str s) },
                       .updated)

end BCt

/-! Embedding of src/orchestrator/jobs/get_ct.py (per-route CT job):
    same matching logic, reading tags from dispatch_raw. -/

namespace OCt

/-- Embeds extract_codcomu_value of orchestrator/jobs/get_ct.py, which
reads dispatch_raw.tags and then scans exactly like backfill_ct.py. -/
def extract_codcomu_value : TagsVal → Except PyErr (Option PyStr)
  | .notList => .ok none
  | .list l => BCt.extract_codcomu_list l

/-- Embeds the selection query of run in orchestrator/jobs/get_ct.py:
ct null or missing. -/
def selected (d : BCt.CtDispatch) : Bool :=
  d.ct = .missing || d.ct = .val PyVal.none

/-- Embeds the per-dispatch body of run in orchestrator/jobs/get_ct.py
(lines 85-116), reading the tags under dispatch_raw. -/
def run_step (table : List BCt.CtRow) (d : BCt.CtDispatch) :
    Except PyErr (BCt.CtDispatch × BCt.CtOutcome) :=
  match extract_codcomu_value d.rawTags with
  | .error e => .error e
  | .ok extId =>
      match extId with
      | Option.none => .ok (d, .noCode)
      | some s =>
          if s.isEmpty then .ok (d, .noCode)
          else
            match table.find? (fun row => row.idExt = PyVal.str s) with
            | Option.none => .ok (d, .notFound)
            | some row =>
                if !py_truthy row.ctCorresponde then .ok (d, .notFound)
                else
                  .ok ({ d with
                          ct := .val (.str (py_strip (py_str row.ctCorresponde))),
                          ctMatchCodcomu := .val (.str s) },
                       .updated)

end OCt

namespace BSub

/-- Embeds extract_codcomu_value of backfill_substatus.py
(lines 103-126), identical scan to the one in backfill_ct.py: a
non-dict element raises AttributeError because it has no get. -/
def extract_codcomu_list : List TagEntry → Except PyErr (Option PyStr)
  | [] => .ok none
  | .nondict :: _ => .error .attrError
  | .dict nmL nmC vL vC :: rest =>
      let name := py_or nmL nmC
      if !py_truthy name then extract_codcomu_list rest
      else if py_upper (py_strip (py_str name)) = "CODCOMU".data then
        match py_or vL vC with
        | .none => .ok none
        | w => .ok (some (py_strip (py_str w)))
      else extract_codcomu_list rest

/-- Embeds extract_codcomu_value on a whole document. -/
def extract_codcomu_value : TagsVal → Except PyErr (Option PyStr)
  | .notList => .ok none
  | .list l => extract_codcomu_list l

end BSub

/-- A dispatch document as seen by the date and category backfills.
tags is the flat tags field (read by the src/ scripts), rawTags is
dispatch_raw.tags (read by the orchestrator job), recent says whether
sync_timestamp lies within the sync window. -/
structure EDisp where
  tags : TagsVal
  rawTags : TagsVal
  compromiseDate : FieldV
  compromiseDateRaw : FieldV
  tipoOrden : FieldV
  recent : Bool
deriving DecidableEq

/-! Embedding of src/backfill_compromise_date_from_tags.py. -/

namespace BDate

/-- Embeds extract_fecsoldes: first dict tag whose name equals
FECSOLDES yields its value; non-dict elements are skipped by the
isinstance guard; a non-list tags field yields None. -/
def extract_fecsoldes_list : List TagEntry → PyVal
  | [] => .none
  | .nondict :: rest => extract_fecsoldes_list rest
  | .dict nmL _ vL _ :: rest =>
      if nmL = PyVal.str "FECSOLDES".data then vL
      else extract_fecsoldes_list rest

/-- Embeds extract_fecsoldes on a whole document. -/
def extract_fecsoldes : TagsVal → PyVal
  | .notList => .none
  | .list l => extract_fecsoldes_list l

/-- Embeds normalize_compromise_date: an 8-digit string YYYYMMDD is
reformatted to YYYY-MM-DD, anything else gives None. -/
def normalize_compromise_date (raw : PyVal) : Option PyStr :=
  if !py_truthy raw then none
  else
    let s := py_strip (py_str raw)
    if s.length != 8 || !py_is_digit s then none
    else some (s.take 4 ++ '-' :: (s.drop 4).take 2 ++ '-' :: (s.drop 6).take 2)

/-- Embeds the selection query of run: compromise_date does not exist
and sync_timestamp is within the window. -/
def selected (x : EDisp) : Bool := x.compromiseDate = .missing && x.recent

/-- Whether the per-document body of process_batch writes this
document: selected, tag found, and the format is valid. -/
def writes (x : EDisp) : Bool :=
  selected x &&
    (let raw := extract_fecsoldes x.tags
     raw != PyVal.none && (normalize_compromise_date raw).isSome)

/-- Embeds one pass of run and process_batch over a single document:
documents already carrying compromise_date are not selected; a missing
or invalid FECSOLDES tag is skipped; otherwise both the raw and the
normalized date are written.  The update is keyed by the unique
identifier of the document, so it is modelled as an in-place update. -/
def step (x : EDisp) : EDisp :=
  if selected x then
    let raw := extract_fecsoldes x.tags
    if raw = PyVal.none then x
    else
      match normalize_compromise_date raw with
      | Option.none => x
      | some nd =>
          { x with compromiseDateRaw := .val raw,
                   compromiseDate := .val (.str nd) }
  else x

/-- One pass of run over the corpus: the updated corpus and the number
of documents written. -/
def run_pass (docs : List EDisp) : List EDisp × Nat :=
  (docs.map step, (docs.filter writes).length)

end BDate

/-! Embedding of src/backfill_tipo_orden_from_tags.py (recent-window
    category backfill). -/

namespace BTipo

/-- Embeds extract_tipo_orden: first dict tag named TIPO_ORDEN yields
its value; non-dict elements are skipped; non-list tags yield None. -/
def extract_tipo_orden_list : List TagEntry → PyVal
  | [] => .none
  | .nondict :: rest => extract_tipo_orden_list rest
  | .dict nmL _ vL _ :: rest =>
      if nmL = PyVal.str "TIPO_ORDEN".data then vL
      else extract_tipo_orden_list rest

/-- Embeds extract_tipo_orden on a whole document. -/
def extract_tipo_orden : TagsVal → PyVal
  | .notList => .none
  | .list l => extract_tipo_orden_list l

/-- Embeds the selection query of run in
src/backfill_tipo_orden_from_tags.py: tipo_orden does not exist and
sync_timestamp is within the window. -/
def selected (x : EDisp) : Bool := x.tipoOrden = .missing && x.recent

/-- Whether the per-document body of run writes this document: the
value is written whenever the tag is present with a non-None value. -/
def writes (x : EDisp) : Bool :=
  selected x && extract_tipo_orden x.tags != PyVal.none

/-- Embeds one pass of run over a single document. -/
def step (x : EDisp) : EDisp :=
  if selected x then
    let v := extract_tipo_orden x.tags
    if v = PyVal.none then x
    else { x with tipoOrden := .val v }
  else x

/-- One pass of run over the corpus. -/
def run_pass (docs : List EDisp) : List EDisp × Nat :=
  (docs.map step, (docs.filter writes).length)

end BTipo

/-! Embedding of src/orchestrator/jobs/backfill_tipo_orden_from_tags.py
    (per-route category backfill). -/

namespace OTipo

/-- Embeds get_tag_value_from_dispatch for TIPO_ORDEN, reading
dispatch_raw.tags with the same scan as the flat script. -/
def extract_tipo_orden : TagsVal → PyVal
  | .notList => .none
  | .list l => BTipo.extract_tipo_orden_list l

/-- Embeds the selection query of run in
orchestrator/jobs/backfill_tipo_orden_from_tags.py: tipo_orden missing,
null, or the empty string. -/
def selected (x : EDisp) : Bool :=
  x.tipoOrden = .missing || x.tipoOrden = .val PyVal.none ||
    x.tipoOrden = .val (PyVal.str [])

/-- Whether the per-document body of run writes this document: only
truthy extracted values are written. -/
def writes (x : EDisp) : Bool :=
  selected x && py_truthy (extract_tipo_orden x.rawTags)

/-- Embeds one pass of run over a single document. -/
def step (x : EDisp) : EDisp :=
  if selected x then
    let v := extract_tipo_orden x.rawTags
    if !py_truthy v then x
    else { x with tipoOrden := .val v }
  else x

/-- One pass of run over the corpus. -/
def run_pass (docs : List EDisp) : List EDisp × Nat :=
  (docs.map step, (docs.filter writes).length)

end OTipo

/-! Embedding of src/trash/run_actualization.py: the route state
    tracker and the actualization controller. -/

namespace Act

/-- The value stored under date in a route document: null or missing,
a datetime (carrying its calendar day in ISO form), a date (likewise),
or a string-like value. -/
inductive DateV where
  | dnull
  | ddatetime (isoDay : PyStr)
  | ddate (isoDay : PyStr)
  | dstr (s : PyStr)
deriving DecidableEq

/-- The value doc.get returns for page: None (missing or null), a
value on which int succeeds, or a value on which int raises. -/
inductive PageV where
  | pnone
  | pint (n : Int)
  | pbad
deriving DecidableEq

/-- A route document, with the fields run_actualization.py reads. -/
structure RouteDoc where
  routeKey : PyVal
  dateV : DateV
  page : PageV
  isClosed : FieldV
  lastProcessedAt : Option Int
deriving DecidableEq

/-- Embeds extract_date_str: datetimes and dates yield their ISO day,
a string of length at least 10 yields its first 10 characters, anything
else yields None. -/
def extract_date_str : DateV → Option PyStr
  | .dnull => none
  | .ddatetime iso => some iso
  | .ddate iso => some iso
  | .dstr s => if 10 ≤ s.length then some (s.take 10) else none

/-- A route is open when is_closed is not true (matching the query
is_closed ne True, which also matches a missing field). -/
def is_open (r : RouteDoc) : Bool := !(r.isClosed = FieldV.val (PyVal.bool true))

/-- Per-date accumulator of get_dates_and_pages_for_open_routes: the
known pages (a set, modelled as a list without duplicates) and the
has_missing_page flag. -/
structure DateInfo where
  pages : List Int
  hasMissingPage : Bool
deriving DecidableEq

/-- The fresh entry used by setdefault. -/
def default_info : DateInfo := ⟨[], false⟩

instance : Inhabited DateInfo := ⟨default_info⟩

/-- Python set.add on the modelled page set. -/
def insert_page (n : Int) (ps : List Int) : List Int :=
  if n ∈ ps then ps else n :: ps

/-- Folding one route document into its date entry: a None page sets
has_missing_page, an int page joins the page set, and a page on which
int raises also sets has_missing_page (the except branch). -/
def apply_page (p : PageV) (info : DateInfo) : DateInfo :=
  match p with
  | .pnone => { info with hasMissingPage := true }
  | .pint n => { info with pages := insert_page n info.pages }
  | .pbad => { info with hasMissingPage := true }

/-- Lookup in the modelled dict (an association list). -/
def lookup_assoc (d : PyStr) : List (PyStr × DateInfo) → Option DateInfo
  | [] => none
  | (k, v) :: rest => if k = d then some v else lookup_assoc d rest

/-- dict.setdefault followed by a mutation of the entry. -/
def upd_assoc (m : List (PyStr × DateInfo)) (d : PyStr)
    (f : DateInfo → DateInfo) : List (PyStr × DateInfo) :=
  match m with
  | [] => [(d, f default_info)]
  | (k, v) :: rest =>
      if k = d then (k, f v) :: rest else (k, v) :: upd_assoc rest d f

/-- One loop iteration of get_dates_and_pages_for_open_routes over a
document returned by the open-routes query. -/
def tracker_step (m : List (PyStr × DateInfo)) (doc : RouteDoc) :
    List (PyStr × DateInfo) :=
  match extract_date_str doc.dateV with
  | Option.none => m
  | some d => upd_assoc m d (apply_page doc.page)

/-- Embeds get_dates_and_pages_for_open_routes (lines 74-122): the
cursor filters to open routes, the loop groups dates and pages. -/
def tracker (docs : List RouteDoc) : List (PyStr × DateInfo) :=
  (docs.filter is_open).foldl tracker_step []

/-- Lexicographic string comparison by code point, as Python uses for
the date strings. -/
def lex_le : PyStr → PyStr → Bool
  | [], _ => true
  | _ :: _, [] => false
  | a :: as, b :: bs =>
      if a.toNat < b.toNat then true
      else if b.toNat < a.toNat then false
      else lex_le as bs

/-- View of one tracker fold step at a single date d: how the entry of
d in the accumulated dict evolves when one more open-route document is
folded in.  Used to characterise the tracker. -/
def per_date_step (d : PyStr) (acc : Option DateInfo) (doc : RouteDoc) :
    Option DateInfo :=
  match extract_date_str doc.dateV with
  | Option.none => acc
  | some d2 =>
      if d2 = d then some (apply_page doc.page (acc.getD default_info))
      else acc

/-- The page set of a possibly absent date entry. -/
def pagesOf (acc : Option DateInfo) : List Int :=
  (acc.getD default_info).pages

/-- The has_missing_page flag of a possibly absent date entry. -/
def missingOf (acc : Option DateInfo) : Bool :=
  (acc.getD default_info).hasMissingPage

/-- The comparison lex_le as a decidable relation, for sorting. -/
def LexLe (a b : PyStr) : Prop := lex_le a b = true

instance : DecidableRel LexLe := fun a b =>
  inferInstanceAs (Decidable (lex_le a b = true))

instance : IsRefl PyStr LexLe :=
  ⟨by
    intro a
    induction a with
    | nil => rfl
    | cons c cs ih => simp [LexLe, lex_le] at ih ⊢; simp [ih]⟩

instance : IsTotal PyStr LexLe :=
  ⟨by
    intro a b
    simp only [LexLe]
    induction a generalizing b with
    | nil => left; rfl
    | cons c cs ih =>
      cases b with
      | nil => right; rfl
      | cons d ds =>
        by_cases h1 : c.toNat < d.toNat
        · left; simp [lex_le, h1]
        · by_cases h2 : d.toNat < c.toNat
          · right; simp [lex_le, h2]
          · rcases ih ds with h | h
            · left; simp [lex_le, h1, h2, h]
            · right; simp [lex_le, h1, h2, h]⟩

instance : IsTrans PyStr LexLe :=
  ⟨by
    intro a b c h1 h2
    simp only [LexLe] at h1 h2 ⊢
    induction a generalizing b c with
    | nil => rfl
    | cons x xs ih =>
      cases b with
      | nil => simp [lex_le] at h1
      | cons y ys =>
        cases c with
        | nil => simp [lex_le] at h2
        | cons z zs =>
          simp only [lex_le] at h1 h2 ⊢
          split_ifs at h1 h2 ⊢ <;>
            first
            | rfl
            | omega
            | exact ih ys zs h1 h2⟩

instance : IsAntisymm PyStr LexLe :=
  ⟨by
    intro a b h1 h2
    simp only [LexLe] at h1 h2
    induction a generalizing b with
    | nil =>
      cases b with
      | nil => rfl
      | cons y ys => simp [lex_le] at h2
    | cons x xs ih =>
      cases b with
      | nil => simp [lex_le] at h1
      | cons y ys =>
        simp only [lex_le] at h1 h2
        split_ifs at h1 h2 <;>
          first
          | omega
          | (have hxy : x = y := by
               have hx := Char.ofNat_toNat x
               have hy := Char.ofNat_toNat y
               rw [← hx, ← hy]
               congr 1
               omega
             rw [hxy, ih ys h1 h2])⟩

/-- The keys of the tracker result. -/
def tracker_dates (m : List (PyStr × DateInfo)) : List PyStr :=
  m.map Prod.fst

/-- Embeds the date discovery of run (lines 188-216): keep tracker
dates at most logical_today, force-include logical_today, iterate the
set of dates in sorted order.  Python sorted is modelled by insertion
sort, which agrees with it on every list. -/
def dates_to_process (m : List (PyStr × DateInfo)) (t : PyStr) :
    List PyStr :=
  let filtered := (tracker_dates m).filter (fun d => lex_le d t)
  let withT := if t ∈ filtered then filtered else filtered ++ [t]
  withT.dedup.insertionSort LexLe

/-- Embeds the open-route re-selection criteria of run (lines 248-260)
for date d: date equal to d, is_closed not true, and when
delta_time_update is positive, last_processed_at at most
now minus delta_time_update hours or absent. -/
def route_matches (r : RouteDoc) (d : PyStr) (nowSec h : Int) : Bool :=
  r.dateV = DateV.dstr d &&
  is_open r &&
  (if 0 < h then
     (match r.lastProcessedAt with
      | some t => decide (t ≤ nowSec - 3600 * h)
      | Option.none => true)
   else true)

/-- Embeds the route_key filter of run (line 267): only documents with
a truthy route_key enter the per-route pipeline. -/
def selected_for_pipeline (r : RouteDoc) (d : PyStr) (nowSec h : Int) :
    Bool :=
  route_matches r d nowSec h && py_truthy r.routeKey

end Act

/-! Embedding of src/fetch_dispatches.py and src/run_jobs.py. -/

namespace Fetch

/-- One HTTP response of the dispatches endpoint: status 200 with its
response list, or any other status code. -/
inductive ApiResp where
  | ok (items : List PyVal)
  | httpErr (status : Nat)
deriving DecidableEq

/-- The pagination loop of fetch_dispatches_by_dates over the stream of
page responses: a 200 with items saves them and moves on, a 200 with an
empty list stops, and a non-200 logs the error and breaks out of the
loop.  Returns the saved dispatches and whether an error was logged. -/
def fetch_pages : List ApiResp → List PyVal × Bool
  | [] => ([], false)
  | .ok items :: rest =>
      if items.isEmpty then ([], false)
      else
        let r := fetch_pages rest
        (items ++ r.1, r.2)
  | .httpErr _ :: _ => ([], true)

/-- Embeds fetch_dispatches_by_dates (lines 33-72): the function body
contains no raise, so every branch returns normally. -/
def fetch_dispatches_by_dates (resps : List ApiResp) :
    Except PyErr (List PyVal × Bool) :=
  .ok (fetch_pages resps)

/-- Exit code of a script run: 0 on a normal return, nonzero when an
exception escapes. -/
def script_exit {α : Type} : Except PyErr α → Nat
  | .ok _ => 0
  | .error _ => 1

end Fetch

namespace RunJobs

/-- Embeds run_command of run_jobs.py (lines 3-10): check True raises
CalledProcessError exactly when the command exits nonzero. -/
def run_command (exit_code : Nat) : Except PyErr Unit :=
  if exit_code = 0 then .ok () else .error .calledProcessErr

/-- Embeds main of run_jobs.py: run the commands in sequence, stopping
at the first one whose run_command raises.  Returns how many commands
were started and the escaping error, if any. -/
def main_seq : List Nat → Nat × Option PyErr
  | [] => (0, none)
  | c :: rest =>
      match run_command c with
      | .error e => (1, some e)
      | .ok _ =>
          let r := main_seq rest
          (r.1 + 1, r.2)

end RunJobs

/-! Concrete documents used to instantiate the theorems below. -/

/-- A dispatch with a usable but unmapped code and a stale estado_guia
value, selected by the per-route sub-status job. -/
def subDispStale : BSub.SubDispatch :=
  ⟨FieldV.val (PyVal.str "ZZZ".data), FieldV.missing,
   FieldV.val (PyVal.str "STALE".data), FieldV.missing⟩

/-- A dispatch whose code became NaN after its three fields were
mapped. -/
def subDispNan : BSub.SubDispatch :=
  ⟨FieldV.val PyVal.nanv, FieldV.val (PyVal.str "OLD".data),
   FieldV.val (PyVal.str "OLD".data), FieldV.val (PyVal.str "OLD".data)⟩

/-- A dispatch with no CODCOMU tag at all. -/
def ctDispNoTag : BCt.CtDispatch :=
  ⟨TagsVal.list [], TagsVal.list [], FieldV.missing, FieldV.missing, true⟩

/-- A dispatch carrying CODCOMU 99 in both tag locations. -/
def ctDispCod99 : BCt.CtDispatch :=
  ⟨TagsVal.list [TagEntry.dict (PyVal.str "CODCOMU".data) PyVal.none
      (PyVal.str "99".data) PyVal.none],
   TagsVal.list [TagEntry.dict (PyVal.str "CODCOMU".data) PyVal.none
      (PyVal.str "99".data) PyVal.none],
   FieldV.missing, FieldV.missing, true⟩

/-- A dispatch with a valid FECSOLDES tag and no enrichment fields. -/
def fecsoldesDisp : EDisp :=
  ⟨TagsVal.list [TagEntry.dict (PyVal.str "FECSOLDES".data) PyVal.none
      (PyVal.str "20251201".data) PyVal.none],
   TagsVal.list [], FieldV.missing, FieldV.missing, FieldV.missing, true⟩

/-- A dispatch whose tipo_orden is a stored null even though a
TIPO_ORDEN tag with a usable value is present. -/
def tipoNullDisp : EDisp :=
  ⟨TagsVal.list [TagEntry.dict (PyVal.str "TIPO_ORDEN".data) PyVal.none
      (PyVal.str "VD".data) PyVal.none],
   TagsVal.list [TagEntry.dict (PyVal.str "TIPO_ORDEN".data) PyVal.none
      (PyVal.str "VD".data) PyVal.none],
   FieldV.missing, FieldV.missing, FieldV.val PyVal.none, true⟩

/-- An open route of 2025-12-01 observed on page 1. -/
def trOpen1 : Act.RouteDoc :=
  ⟨PyVal.str "A1".data, Act.DateV.dstr "2025-12-01".data, Act.PageV.pint 1,
   FieldV.missing, none⟩

/-- An open route of 2025-12-01 observed on page 2. -/
def trOpen2 : Act.RouteDoc :=
  ⟨PyVal.str "A2".data, Act.DateV.dstr "2025-12-01".data, Act.PageV.pint 2,
   FieldV.missing, none⟩

/-- An open route of 2025-12-01 with no recorded page. -/
def trNoPage : Act.RouteDoc :=
  ⟨PyVal.str "A3".data, Act.DateV.dstr "2025-12-01".data, Act.PageV.pnone,
   FieldV.missing, none⟩

/-- An open route of 2025-12-03. -/
def acr1 : Act.RouteDoc :=
  ⟨PyVal.str "B1".data, Act.DateV.dstr "2025-12-03".data, Act.PageV.pint 1,
   FieldV.missing, none⟩

/-- An open route of 2025-12-01. -/
def acr2 : Act.RouteDoc :=
  ⟨PyVal.str "B2".data, Act.DateV.dstr "2025-12-01".data, Act.PageV.pint 1,
   FieldV.missing, none⟩

/-- An open route of 2025-12-05, past the logical today used below. -/
def acr3 : Act.RouteDoc :=
  ⟨PyVal.str "B3".data, Act.DateV.dstr "2025-12-05".data, Act.PageV.pint 1,
   FieldV.missing, none⟩

/-- An open route processed one hour before now = 200000. -/
def routeRecent1h : Act.RouteDoc :=
  ⟨PyVal.str "R1".data, Act.DateV.dstr "2025-12-01".data, Act.PageV.pint 1,
   FieldV.missing, some 196400⟩

/-- An open route processed thirty hours before now = 200000. -/
def routeStale30h : Act.RouteDoc :=
  ⟨PyVal.str "R2".data, Act.DateV.dstr "2025-12-01".data, Act.PageV.pint 1,
   FieldV.missing, some 92000⟩

/-! Helper lemmas about the embedded operations. -/

open Act

theorem mem_insert_page (n k : Int) (ps : List Int) :
    n ∈ insert_page k ps ↔ (n = k ∨ n ∈ ps) := by
  unfold insert_page
  by_cases h : k ∈ ps
  · simp [h]
    intro he
    subst he
    exact h
  · simp [h]

theorem nodup_insert_page (k : Int) (ps : List Int) (h : ps.Nodup) :
    (insert_page k ps).Nodup := by
  unfold insert_page
  by_cases hk : k ∈ ps
  · simpa [hk]
  · simpa [hk]

theorem pagesOf_per (d : PyStr) (acc : Option DateInfo) (doc : RouteDoc)
    (n : Int) :
    n ∈ pagesOf (per_date_step d acc doc) ↔
      ((extract_date_str doc.dateV = some d ∧ doc.page = PageV.pint n) ∨
        n ∈ pagesOf acc) := by
  unfold per_date_step
  cases hext : extract_date_str doc.dateV with
  | none => simp
  | some d2 =>
    by_cases hd : d2 = d
    · subst hd
      simp only [if_pos rfl]
      cases hp : doc.page with
      | pnone => simp [pagesOf, apply_page]
      | pint k =>
        simp [pagesOf, apply_page, mem_insert_page, hext, eq_comm]
      | pbad => simp [pagesOf, apply_page]
    · simp [hd]

theorem missingOf_per (d : PyStr) (acc : Option DateInfo) (doc : RouteDoc) :
    missingOf (per_date_step d acc doc) = true ↔
      ((extract_date_str doc.dateV = some d ∧
          (doc.page = PageV.pnone ∨ doc.page = PageV.pbad)) ∨
        missingOf acc = true) := by
  unfold per_date_step
  cases hext : extract_date_str doc.dateV with
  | none => simp
  | some d2 =>
    by_cases hd : d2 = d
    · subst hd
      simp only [if_pos rfl]
      cases hp : doc.page with
      | pnone => simp [missingOf, apply_page]
      | pint k => simp [missingOf, apply_page]
      | pbad => simp [missingOf, apply_page]
    · simp [hd]

theorem nodup_pagesOf_per (d : PyStr) (acc : Option DateInfo) (doc : RouteDoc)
    (h : (pagesOf acc).Nodup) : (pagesOf (per_date_step d acc doc)).Nodup := by
  unfold per_date_step
  cases hext : extract_date_str doc.dateV with
  | none => exact h
  | some d2 =>
    by_cases hd : d2 = d
    · subst hd
      simp only [if_pos rfl]
      cases hp : doc.page with
      | pnone => simpa [pagesOf, apply_page] using h
      | pint k =>
        simp only [pagesOf, apply_page, Option.getD_some]
        exact nodup_insert_page k _ h
      | pbad => simpa [pagesOf, apply_page] using h
    · simp only [if_neg hd]
      exact h

theorem lookup_upd (m : List (PyStr × DateInfo)) (d d2 : PyStr)
    (f : DateInfo → DateInfo) :
    lookup_assoc d2 (upd_assoc m d f) =
      if d2 = d then some (f ((lookup_assoc d2 m).getD default_info))
      else lookup_assoc d2 m := by
  induction m with
  | nil =>
    by_cases h : d2 = d
    · subst h
      simp [upd_assoc, lookup_assoc]
    · have h2 : ¬d = d2 := fun hh => h hh.symm
      simp [upd_assoc, lookup_assoc, h, h2]
  | cons kv rest ih =>
    obtain ⟨k, v⟩ := kv
    by_cases hkd : k = d
    · subst hkd
      by_cases h2 : d2 = k
      · subst h2
        simp [upd_assoc, lookup_assoc]
      · have h3 : ¬k = d2 := fun hh => h2 hh.symm
        simp [upd_assoc, lookup_assoc, h2, h3]
    · by_cases h2 : k = d2
      · subst h2
        simp [upd_assoc, lookup_assoc, hkd]
      · simp [upd_assoc, lookup_assoc, hkd, h2, ih]

theorem lookup_fold (docs : List RouteDoc) (m : List (PyStr × DateInfo))
    (d : PyStr) :
    lookup_assoc d (docs.foldl tracker_step m) =
      docs.foldl (per_date_step d) (lookup_assoc d m) := by
  induction docs generalizing m with
  | nil => rfl
  | cons doc rest ih =>
    simp only [List.foldl_cons]
    rw [ih]
    congr 1
    unfold tracker_step per_date_step
    cases hext : extract_date_str doc.dateV with
    | none => rfl
    | some d2 =>
      rw [lookup_upd]
      by_cases h : d2 = d
      · subst h
        simp
      · have h2 : ¬d = d2 := fun hh => h hh.symm
        simp [h, h2]

theorem fold_none_iff (d : PyStr) (docs : List RouteDoc) :
    ∀ acc, docs.foldl (per_date_step d) acc = none ↔
      (acc = none ∧ ∀ r ∈ docs, extract_date_str r.dateV ≠ some d) := by
  induction docs with
  | nil => intro acc; simp
  | cons doc rest ih =>
    intro acc
    simp only [List.foldl_cons]
    rw [ih]
    unfold per_date_step
    cases hext : extract_date_str doc.dateV with
    | none => simp [hext]
    | some d2 =>
      by_cases h : d2 = d
      · subst h
        simp [hext]
      · simp [hext, h]

theorem fold_pages (d : PyStr) (docs : List RouteDoc) :
    ∀ acc info, docs.foldl (per_date_step d) acc = some info →
      ∀ n : Int, n ∈ info.pages ↔
        (n ∈ pagesOf acc ∨
          ∃ r ∈ docs, extract_date_str r.dateV = some d ∧
            r.page = PageV.pint n) := by
  induction docs with
  | nil =>
    intro acc info h n
    simp only [List.foldl_nil] at h
    subst h
    simp [pagesOf]
  | cons doc rest ih =>
    intro acc info h n
    simp only [List.foldl_cons] at h
    rw [ih (per_date_step d acc doc) info h n]
    rw [pagesOf_per]
    simp only [List.mem_cons]
    constructor
    · rintro ((⟨h1, h2⟩ | h1) | ⟨r, hr, h1, h2⟩)
      · exact Or.inr ⟨doc, Or.inl rfl, h1, h2⟩
      · exact Or.inl h1
      · exact Or.inr ⟨r, Or.inr hr, h1, h2⟩
    · rintro (h1 | ⟨r, hr | hr, h1, h2⟩)
      · exact Or.inl (Or.inr h1)
      · subst hr
        exact Or.inl (Or.inl ⟨h1, h2⟩)
      · exact Or.inr ⟨r, hr, h1, h2⟩

theorem fold_missing (d : PyStr) (docs : List RouteDoc) :
    ∀ acc info, docs.foldl (per_date_step d) acc = some info →
      (info.hasMissingPage = true ↔
        (missingOf acc = true ∨
          ∃ r ∈ docs, extract_date_str r.dateV = some d ∧
            (r.page = PageV.pnone ∨ r.page = PageV.pbad))) := by
  induction docs with
  | nil =>
    intro acc info h
    simp only [List.foldl_nil] at h
    subst h
    simp [missingOf]
  | cons doc rest ih =>
    intro acc info h
    simp only [List.foldl_cons] at h
    rw [ih (per_date_step d acc doc) info h]
    rw [missingOf_per]
    simp only [List.mem_cons]
    constructor
    · rintro ((⟨h1, h2⟩ | h1) | ⟨r, hr, h1, h2⟩)
      · exact Or.inr ⟨doc, Or.inl rfl, h1, h2⟩
      · exact Or.inl h1
      · exact Or.inr ⟨r, Or.inr hr, h1, h2⟩
    · rintro (h1 | ⟨r, hr | hr, h1, h2⟩)
      · exact Or.inl (Or.inr h1)
      · subst hr
        exact Or.inl (Or.inl ⟨h1, h2⟩)
      · exact Or.inr ⟨r, hr, h1, h2⟩

theorem fold_nodup (d : PyStr) (docs : List RouteDoc) :
    ∀ acc info, (pagesOf acc).Nodup →
      docs.foldl (per_date_step d) acc = some info → info.pages.Nodup := by
  induction docs with
  | nil =>
    intro acc info hnd h
    simp only [List.foldl_nil] at h
    subst h
    simpa [pagesOf] using hnd
  | cons doc rest ih =>
    intro acc info hnd h
    simp only [List.foldl_cons] at h
    exact ih (per_date_step d acc doc) info (nodup_pagesOf_per d acc doc hnd) h

theorem lookup_isSome_iff_mem_keys (d : PyStr) :
    ∀ m : List (PyStr × DateInfo),
      (lookup_assoc d m).isSome ↔ d ∈ tracker_dates m := by
  intro m
  induction m with
  | nil => simp [lookup_assoc, tracker_dates]
  | cons kv rest ih =>
    obtain ⟨k, v⟩ := kv
    by_cases h : k = d
    · subst h
      simp [lookup_assoc, tracker_dates]
    · simp only [lookup_assoc, if_neg h, tracker_dates, List.map_cons,
        List.mem_cons]
      rw [ih]
      simp [tracker_dates]
      intro hh
      exact absurd hh.symm h

theorem bdate_step_of_not_writes (x : EDisp) (h : BDate.writes x = false) :
    BDate.step x = x := by
  by_cases hs : BDate.selected x = true
  · by_cases hn : BDate.extract_fecsoldes x.tags = PyVal.none
    · simp [BDate.step, hs, hn]
    · cases hnc : BDate.normalize_compromise_date (BDate.extract_fecsoldes x.tags) with
      | none => simp [BDate.step, hs, hn, hnc]
      | some nd =>
        exfalso
        simp [BDate.writes, hs, hn, hnc] at h
  · simp [BDate.step, hs]

theorem bdate_writes_false (x : EDisp) : BDate.writes (BDate.step x) = false := by
  by_cases hs : BDate.selected x = true
  · by_cases hn : BDate.extract_fecsoldes x.tags = PyVal.none
    · rw [bdate_step_of_not_writes x (by simp [BDate.writes, hn])]
      simp [BDate.writes, hn]
    · cases hnc : BDate.normalize_compromise_date (BDate.extract_fecsoldes x.tags) with
      | none =>
        rw [bdate_step_of_not_writes x (by simp [BDate.writes, hnc])]
        simp [BDate.writes, hnc]
      | some nd =>
        have hstep : BDate.step x =
            { x with compromiseDateRaw := .val (BDate.extract_fecsoldes x.tags),
                     compromiseDate := .val (.str nd) } := by
          simp [BDate.step, hs, hn, hnc]
        rw [hstep]
        simp [BDate.writes, BDate.selected]
  · have hs0 : BDate.selected x = false := by
      revert hs
      cases BDate.selected x <;> simp
    rw [bdate_step_of_not_writes x (by simp [BDate.writes, hs0])]
    simp [BDate.writes, hs0]

theorem bdate_written_filled (x : EDisp) (h : BDate.writes x = true) :
    (BDate.step x).compromiseDate ≠ FieldV.missing := by
  simp only [BDate.writes, Bool.and_eq_true] at h
  obtain ⟨hs, hrest⟩ := h
  simp only [Bool.and_eq_true, bne_iff_ne, ne_eq, Option.isSome_iff_exists] at hrest
  obtain ⟨hn, nd, hnc⟩ := hrest
  simp [BDate.step, hs, hn, hnc]

theorem btipo_step_of_not_writes (x : EDisp) (h : BTipo.writes x = false) :
    BTipo.step x = x := by
  by_cases hs : BTipo.selected x = true
  · by_cases hn : BTipo.extract_tipo_orden x.tags = PyVal.none
    · simp [BTipo.step, hs, hn]
    · exfalso
      simp [BTipo.writes, hs, hn] at h
  · simp [BTipo.step, hs]

theorem btipo_writes_false (x : EDisp) : BTipo.writes (BTipo.step x) = false := by
  by_cases hs : BTipo.selected x = true
  · by_cases hn : BTipo.extract_tipo_orden x.tags = PyVal.none
    · rw [btipo_step_of_not_writes x (by simp [BTipo.writes, hn])]
      simp [BTipo.writes, hn]
    · have hstep : BTipo.step x =
          { x with tipoOrden := .val (BTipo.extract_tipo_orden x.tags) } := by
        simp [BTipo.step, hs, hn]
      rw [hstep]
      simp [BTipo.writes, BTipo.selected]
  · have hs0 : BTipo.selected x = false := by
      revert hs
      cases BTipo.selected x <;> simp
    rw [btipo_step_of_not_writes x (by simp [BTipo.writes, hs0])]
    simp [BTipo.writes, hs0]

theorem btipo_written_filled (x : EDisp) (h : BTipo.writes x = true) :
    (BTipo.step x).tipoOrden ≠ FieldV.missing := by
  simp only [BTipo.writes, Bool.and_eq_true, bne_iff_ne, ne_eq] at h
  obtain ⟨hs, hn⟩ := h
  simp [BTipo.step, hs, hn]

theorem otipo_step_of_not_writes (x : EDisp) (h : OTipo.writes x = false) :
    OTipo.step x = x := by
  by_cases hs : OTipo.selected x = true
  · by_cases hn : py_truthy (OTipo.extract_tipo_orden x.rawTags) = true
    · exfalso
      simp [OTipo.writes, hs, hn] at h
    · have hn0 : py_truthy (OTipo.extract_tipo_orden x.rawTags) = false := by
        revert hn
        cases py_truthy (OTipo.extract_tipo_orden x.rawTags) <;> simp
      simp [OTipo.step, hs, hn0]
  · simp [OTipo.step, hs]

theorem otipo_writes_false (x : EDisp) : OTipo.writes (OTipo.step x) = false := by
  by_cases hs : OTipo.selected x = true
  · by_cases hn : py_truthy (OTipo.extract_tipo_orden x.rawTags) = true
    · have hstep : OTipo.step x =
          { x with tipoOrden := .val (OTipo.extract_tipo_orden x.rawTags) } := by
        simp [OTipo.step, hs, hn]
      rw [hstep]
      have hsel : OTipo.selected
          { x with tipoOrden := .val (OTipo.extract_tipo_orden x.rawTags) } = false := by
        cases hv : OTipo.extract_tipo_orden x.rawTags <;>
          simp [OTipo.selected] <;>
          simp [hv, py_truthy] at hn <;> simp_all [py_truthy]
      simp [OTipo.writes, hsel]
    · rw [otipo_step_of_not_writes x (by
        have hn0 : py_truthy (OTipo.extract_tipo_orden x.rawTags) = false := by
          revert hn
          cases py_truthy (OTipo.extract_tipo_orden x.rawTags) <;> simp
        simp [OTipo.writes, hn0])]
      have hn0 : py_truthy (OTipo.extract_tipo_orden x.rawTags) = false := by
        revert hn
        cases py_truthy (OTipo.extract_tipo_orden x.rawTags) <;> simp
      simp [OTipo.writes, hn0]
  · have hs0 : OTipo.selected x = false := by
      revert hs
      cases OTipo.selected x <;> simp
    rw [otipo_step_of_not_writes x (by simp [OTipo.writes, hs0])]
    simp [OTipo.writes, hs0]


/-! Theorems for the claims C1 to C10. -/

/-- C1: in a run with delta_time_update = h hours, an open route of the
processed date (with its route_key present, as the data model
guarantees) is selected for the per-route pipeline iff its
last_processed_at is absent or at least h hours older than the wall
clock now of the run; with h = 0 every open route of the date is
selected. -/
theorem actualization_staleness_gate (r : Act.RouteDoc) (d : PyStr)
    (nowSec h : Int) (hk : py_truthy r.routeKey = true) :
    (0 < h →
      (Act.selected_for_pipeline r d nowSec h = true ↔
        (Act.is_open r = true ∧ r.dateV = Act.DateV.dstr d ∧
          (r.lastProcessedAt = none ∨
            ∃ t, r.lastProcessedAt = some t ∧ 3600 * h ≤ nowSec - t)))) ∧
    (h = 0 →
      (Act.selected_for_pipeline r d nowSec h = true ↔
        (Act.is_open r = true ∧ r.dateV = Act.DateV.dstr d))) := by
  constructor
  · intro hpos
    cases hl : r.lastProcessedAt with
    | none =>
      simp only [Act.selected_for_pipeline, Act.route_matches, hk,
        Bool.and_true, if_pos hpos, hl]
      simp
      tauto
    | some t =>
      simp only [Act.selected_for_pipeline, Act.route_matches, hk,
        Bool.and_true, if_pos hpos, hl]
      simp
      constructor
      · rintro ⟨⟨h1, h2⟩, h3⟩
        exact ⟨h2, h1, by omega⟩
      · rintro ⟨h1, h2, h3⟩
        exact ⟨⟨h2, h1⟩, by omega⟩
  · intro h0
    subst h0
    simp only [Act.selected_for_pipeline, Act.route_matches, hk, Bool.and_true]
    simp
    tauto

/-- C1 witness: with h = 24 and now = 200000, the route processed one
hour ago is excluded and the route processed thirty hours ago is
included. -/
theorem actualization_staleness_gate_witness :
    Act.selected_for_pipeline routeRecent1h "2025-12-01".data 200000 24 =
      false ∧
    Act.selected_for_pipeline routeStale30h "2025-12-01".data 200000 24 =
      true := by
  constructor
  · have h1 := (actualization_staleness_gate routeRecent1h "2025-12-01".data
      200000 24 (by decide)).1 (by decide)
    cases hsel : Act.selected_for_pipeline routeRecent1h "2025-12-01".data
        200000 24 with
    | false => rfl
    | true =>
      rcases h1.mp hsel with ⟨-, -, hor⟩
      rcases hor with hnone | ⟨t, ht, hle⟩
      · exact absurd hnone (by decide)
      · have ht2 : t = 196400 := by
          have hgoal : routeRecent1h.lastProcessedAt = some 196400 := rfl
          rw [hgoal] at ht
          injection ht with ht3
          omega
        omega
  · exact ((actualization_staleness_gate routeStale30h "2025-12-01".data
      200000 24 (by decide)).1 (by decide)).mpr
      ⟨by decide, by decide, Or.inr ⟨92000, rfl, by decide⟩⟩

/-- C2 amended: in the recent-window sub-status job the per-dispatch
update is total on the three derived fields regardless of prior values:
an unusable code writes null into all three, a usable code with a
mapping hit writes the row values, and a usable code with no mapping
row also writes null into all three; the code field itself is left
unchanged.  The per-route orchestrator variant behaves differently and
is refuted separately. -/
theorem substatus_match_clears (table : List BSub.SubRow)
    (d : BSub.SubDispatch) :
    (BSub.normalize_code (getF d.substatusCode) = none →
      (BSub.run_step table d).estadoBeetrack = .val .none ∧
      (BSub.run_step table d).estadoGuia = .val .none ∧
      (BSub.run_step table d).cierre = .val .none) ∧
    (∀ s, BSub.normalize_code (getF d.substatusCode) = some s →
      (∀ row, BSub.lookup_substatus table (getF d.substatusCode) = some row →
        (BSub.run_step table d).estadoBeetrack = .val row.estadoBeetrack ∧
        (BSub.run_step table d).estadoGuia = .val row.estadoGuia ∧
        (BSub.run_step table d).cierre = .val row.cierre) ∧
      (BSub.lookup_substatus table (getF d.substatusCode) = none →
        (BSub.run_step table d).estadoBeetrack = .val .none ∧
        (BSub.run_step table d).estadoGuia = .val .none ∧
        (BSub.run_step table d).cierre = .val .none)) ∧
    (BSub.run_step table d).substatusCode = d.substatusCode := by
  refine ⟨?_, ?_, ?_⟩
  · intro hn
    simp [BSub.run_step, hn]
  · intro s hs
    constructor
    · intro row hrow
      simp [BSub.run_step, hs, hrow]
    · intro hrow
      simp [BSub.run_step, hs, hrow]
  · cases hn : BSub.normalize_code (getF d.substatusCode) with
    | none => simp [BSub.run_step, hn]
    | some s =>
      cases hr : BSub.lookup_substatus table (getF d.substatusCode) with
      | none => simp [BSub.run_step, hn, hr]
      | some row => simp [BSub.run_step, hn, hr]

/-- C2 counterexample: the per-route sub-status job of the orchestrator
processes a dispatch with a usable but unmapped code and leaves its
stale estado_guia value untouched instead of writing null. -/
theorem substatus_match_cex :
    OSub.selected subDispStale = true ∧
    BSub.normalize_code (getF subDispStale.substatusCode) =
      some "ZZZ".data ∧
    OSub.run_step [] subDispStale = subDispStale ∧
    (OSub.run_step [] subDispStale).estadoGuia =
      FieldV.val (PyVal.str "STALE".data) ∧
    (OSub.run_step [] subDispStale).estadoGuia ≠ FieldV.val PyVal.none :=
  ⟨by decide, by decide, rfl, by decide, by decide⟩

/-- C2 witness: a dispatch whose code became NaN has all three derived
fields cleared by one pass of the recent-window job. -/
theorem substatus_match_clears_witness :
    (BSub.run_step [] subDispNan).estadoBeetrack = FieldV.val PyVal.none ∧
    (BSub.run_step [] subDispNan).estadoGuia = FieldV.val PyVal.none ∧
    (BSub.run_step [] subDispNan).cierre = FieldV.val PyVal.none :=
  (substatus_match_clears [] subDispNan).1 (by decide)

/-- C3: in both CT jobs a dispatch with no extractable CODCOMU code is
returned unmodified and tallied as no code, and a dispatch whose code
has no row in the CT table (or a row without a usable carrier value) is
returned unmodified and tallied as not found.  In particular its ct and
ct_match_codcomu fields are neither written nor nulled. -/
theorem ct_match_leaves_unmatched_untouched (x : BCt.CtDispatch)
    (table : List BCt.CtRow) :
    (BCt.extract_codcomu_value x.tags = .ok none →
      BCt.run_step table x = .ok (x, .noCode)) ∧
    (∀ s, BCt.extract_codcomu_value x.tags = .ok (some s) →
      (s.isEmpty = true → BCt.run_step table x = .ok (x, .noCode)) ∧
      (s.isEmpty = false →
        (table.find? (fun row => row.idExt = PyVal.str s) = none →
          BCt.run_step table x = .ok (x, .notFound)) ∧
        (∀ row, table.find? (fun row => row.idExt = PyVal.str s) = some row →
          py_truthy row.ctCorresponde = false →
          BCt.run_step table x = .ok (x, .notFound)))) ∧
    (OCt.extract_codcomu_value x.rawTags = .ok none →
      OCt.run_step table x = .ok (x, .noCode)) ∧
    (∀ s, OCt.extract_codcomu_value x.rawTags = .ok (some s) →
      (s.isEmpty = true → OCt.run_step table x = .ok (x, .noCode)) ∧
      (s.isEmpty = false →
        (table.find? (fun row => row.idExt = PyVal.str s) = none →
          OCt.run_step table x = .ok (x, .notFound)) ∧
        (∀ row, table.find? (fun row => row.idExt = PyVal.str s) = some row →
          py_truthy row.ctCorresponde = false →
          OCt.run_step table x = .ok (x, .notFound)))) := by
  refine ⟨?_, ?_, ?_, ?_⟩
  · intro he
    simp [BCt.run_step, he]
  · intro s hs
    constructor
    · intro hemp
      simp [BCt.run_step, hs, hemp]
    · intro hemp
      constructor
      · intro hfind
        simp [BCt.run_step, hs, hemp, hfind]
      · intro row hfind htr
        simp [BCt.run_step, hs, hemp, hfind, htr]
  · intro he
    simp [OCt.run_step, he]
  · intro s hs
    constructor
    · intro hemp
      simp [OCt.run_step, hs, hemp]
    · intro hemp
      constructor
      · intro hfind
        simp [OCt.run_step, hs, hemp, hfind]
      · intro row hfind htr
        simp [OCt.run_step, hs, hemp, hfind, htr]

/-- C3 witness: a dispatch without the tag and a dispatch with an
unmapped code both pass through the CT jobs unmodified, with the two
distinct tallies. -/
theorem ct_match_leaves_unmatched_untouched_witness :
    BCt.run_step [] ctDispNoTag = .ok (ctDispNoTag, .noCode) ∧
    BCt.run_step [] ctDispCod99 = .ok (ctDispCod99, .notFound) ∧
    OCt.run_step [] ctDispCod99 = .ok (ctDispCod99, .notFound) := by
  refine ⟨(ct_match_leaves_unmatched_untouched ctDispNoTag []).1 rfl, ?_, ?_⟩
  · exact (((ct_match_leaves_unmatched_untouched ctDispCod99 []).2.1
      "99".data rfl).2 (by decide)).1 rfl
  · exact (((ct_match_leaves_unmatched_untouched ctDispCod99 []).2.2.2
      "99".data rfl).2 (by decide)).1 rfl

/-- C4 amended: the variant set of the recent-window job contains the
trimmed string form of the code and the integer form exactly when the
trimmed string is all digits, and that job returns the sentinel for
None, NaN, infinity, the empty string and the text nan; the variant
function of the per-route orchestrator job instead returns the sentinel
only for None and otherwise also includes the raw code value. -/
theorem code_variants_spec :
    (∀ c vs, BSub.code_variants c = some vs →
      PyVal.str (py_strip (py_str c)) ∈ vs ∧
      (∀ k : Int, PyVal.int k ∈ vs ↔
        (py_is_digit (py_strip (py_str c)) = true ∧
          k = (digits_to_nat (py_strip (py_str c)) : Int)))) ∧
    (BSub.code_variants PyVal.none = none ∧
     BSub.code_variants PyVal.nanv = none ∧
     BSub.code_variants PyVal.infv = none ∧
     BSub.code_variants (PyVal.str []) = none ∧
     BSub.code_variants (PyVal.str "nan".data) = none) ∧
    (∀ c, OSub.code_variants c = none ↔ c = PyVal.none) ∧
    (∀ c vs, OSub.code_variants c = some vs →
      c ∈ vs ∧ PyVal.str (py_strip (py_str c)) ∈ vs ∧
      (py_is_digit (py_strip (py_str c)) = true →
        PyVal.int (digits_to_nat (py_strip (py_str c))) ∈ vs)) := by
  refine ⟨?_, ⟨by decide, by decide, by decide, by decide, by decide⟩, ?_, ?_⟩
  · intro c vs hvs
    have hnorm : BSub.normalize_code c = some (py_strip (py_str c)) := by
      cases hn : BSub.normalize_code c with
      | none => simp [BSub.code_variants, hn] at hvs
      | some s =>
        have hse : s = py_strip (py_str c) := by
          unfold BSub.normalize_code at hn
          split_ifs at hn <;> simp_all
        rw [hse]
    rw [BSub.code_variants, hnorm] at hvs
    simp at hvs
    subst hvs
    constructor
    · simp
    · intro k
      by_cases hd : py_is_digit (py_strip (py_str c)) = true
      · simp [hd]
      · simp at hd
        simp [hd]
  · intro c
    cases c <;> simp [OSub.code_variants]
  · intro c vs hvs
    unfold OSub.code_variants at hvs
    split_ifs at hvs with hc
    simp at hvs
    subst hvs
    refine ⟨by simp, by simp, ?_⟩
    intro hd
    simp [hd]

/-- C4 counterexample: the variant function of the orchestrator job
does not return the sentinel for the empty string, for NaN, or for the
text nan, contradicting the claim for those inputs. -/
theorem code_variants_cex :
    OSub.code_variants (PyVal.str []) ≠ none ∧
    OSub.code_variants PyVal.nanv =
      some [PyVal.nanv, PyVal.str "nan".data] ∧
    OSub.code_variants (PyVal.str "nan".data) =
      some [PyVal.str "nan".data, PyVal.str "nan".data] := by
  refine ⟨by decide, by decide, by decide⟩

/-- C4 witness: the code 01 with surrounding blanks yields the trimmed
string variant 01 together with the integer variant 1. -/
theorem code_variants_spec_witness :
    PyVal.str (py_strip (py_str (PyVal.str " 01 ".data))) ∈
      [PyVal.str "01".data, PyVal.int 1] ∧
    (PyVal.int 1 ∈ [PyVal.str "01".data, PyVal.int 1] ↔
      (py_is_digit (py_strip (py_str (PyVal.str " 01 ".data))) = true ∧
        (1 : Int) =
          (digits_to_nat (py_strip (py_str (PyVal.str " 01 ".data))) : Int))) :=
  ⟨(code_variants_spec.1 (PyVal.str " 01 ".data) _ (by decide)).1,
   (code_variants_spec.1 (PyVal.str " 01 ".data) _ (by decide)).2 1⟩

/-- C5: the route state tracker has an entry for a date exactly when
some open route carries that date; the page set of the entry holds
exactly the int pages of the open routes of the date, without
duplicates; and the has_missing_page flag is set whenever some open
route of the date has no recorded page (and exactly when some open
route has a missing or non-integer page).  Closed routes contribute
nothing. -/
theorem route_state_tracker_spec (docs : List Act.RouteDoc) (d : PyStr) :
    ((Act.lookup_assoc d (Act.tracker docs)).isSome ↔
      ∃ r ∈ docs, Act.is_open r = true ∧
        Act.extract_date_str r.dateV = some d) ∧
    (∀ info, Act.lookup_assoc d (Act.tracker docs) = some info →
      (∀ n : Int, n ∈ info.pages ↔
        ∃ r ∈ docs, Act.is_open r = true ∧
          Act.extract_date_str r.dateV = some d ∧
          r.page = Act.PageV.pint n) ∧
      info.pages.Nodup ∧
      ((∃ r ∈ docs, Act.is_open r = true ∧
          Act.extract_date_str r.dateV = some d ∧
          r.page = Act.PageV.pnone) → info.hasMissingPage = true) ∧
      (info.hasMissingPage = true ↔
        ∃ r ∈ docs, Act.is_open r = true ∧
          Act.extract_date_str r.dateV = some d ∧
          (r.page = Act.PageV.pnone ∨ r.page = Act.PageV.pbad))) := by
  have hbase : Act.lookup_assoc d (Act.tracker docs) =
      (docs.filter Act.is_open).foldl (Act.per_date_step d) none := by
    unfold Act.tracker
    rw [lookup_fold]
    rfl
  constructor
  · rw [hbase]
    rw [Option.isSome_iff_ne_none]
    rw [ne_eq, fold_none_iff]
    simp only [true_and, not_forall]
    constructor
    · rintro ⟨r, hr, hne⟩
      simp only [List.mem_filter] at hr
      exact ⟨r, hr.1, hr.2, by simpa using hne⟩
    · rintro ⟨r, hr, hop, hext⟩
      exact ⟨r, List.mem_filter.mpr ⟨hr, hop⟩, by simp [hext]⟩
  · intro info hinfo
    rw [hbase] at hinfo
    refine ⟨?_, ?_, ?_, ?_⟩
    · intro n
      rw [fold_pages d (docs.filter Act.is_open) none info hinfo n]
      simp only [Act.pagesOf, Act.default_info, Option.getD_none]
      simp only [List.mem_filter]
      constructor
      · rintro (h | ⟨r, ⟨hr, hop⟩, h1, h2⟩)
        · simp [Act.default_info] at h
        · exact ⟨r, hr, hop, h1, h2⟩
      · rintro ⟨r, hr, hop, h1, h2⟩
        exact Or.inr ⟨r, ⟨hr, hop⟩, h1, h2⟩
    · exact fold_nodup d (docs.filter Act.is_open) none info
        (by simp [Act.pagesOf, Act.default_info]) hinfo
    · intro ⟨r, hr, hop, h1, h2⟩
      rw [fold_missing d (docs.filter Act.is_open) none info hinfo]
      exact Or.inr ⟨r, List.mem_filter.mpr ⟨hr, hop⟩, h1, Or.inl h2⟩
    · rw [fold_missing d (docs.filter Act.is_open) none info hinfo]
      simp only [Act.missingOf, Act.default_info, Option.getD_none,
        List.mem_filter]
      constructor
      · rintro (h | ⟨r, ⟨hr, hop⟩, h1, h2⟩)
        · simp [Act.default_info] at h
        · exact ⟨r, hr, hop, h1, h2⟩
      · rintro ⟨r, hr, hop, h1, h2⟩
        exact Or.inr ⟨r, ⟨hr, hop⟩, h1, h2⟩

/-- C5 witness: open routes on pages 1 and 2 of one date plus an open
route of the same date without a page produce an entry whose
has_missing_page flag is true despite the known pages. -/
theorem route_state_tracker_spec_witness :
    Act.lookup_assoc "2025-12-01".data
      (Act.tracker [trOpen1, trOpen2, trNoPage]) =
      some ⟨[2, 1], true⟩ ∧
    (⟨[2, 1], true⟩ : Act.DateInfo).hasMissingPage = true :=
  ⟨by decide,
   ((route_state_tracker_spec [trOpen1, trOpen2, trNoPage]
       "2025-12-01".data).2 ⟨[2, 1], true⟩ (by decide)).2.2.1
     ⟨trNoPage, by decide, by decide, by decide, rfl⟩⟩

/-- C6: the dates an actualization run processes are exactly the
tracker dates at most logical today together with logical today itself,
iterated in strictly ascending order; and the tracker dates are exactly
the dates with a tracker entry. -/
theorem actualization_dates_spec (docs : List Act.RouteDoc) (t : PyStr) :
    (∀ d, d ∈ Act.dates_to_process (Act.tracker docs) t ↔
      ((d ∈ Act.tracker_dates (Act.tracker docs) ∧ Act.lex_le d t = true) ∨
        d = t)) ∧
    (∀ d, d ∈ Act.tracker_dates (Act.tracker docs) ↔
      (Act.lookup_assoc d (Act.tracker docs)).isSome) ∧
    (Act.dates_to_process (Act.tracker docs) t).Pairwise
      (fun a b => Act.lex_le a b = true ∧ a ≠ b) := by
  refine ⟨?_, ?_, ?_⟩
  · intro d
    unfold Act.dates_to_process
    rw [(List.perm_insertionSort Act.LexLe _).mem_iff, List.mem_dedup]
    by_cases ht : t ∈ (Act.tracker_dates (Act.tracker docs)).filter
        (fun d2 => Act.lex_le d2 t)
    · simp only [if_pos ht]
      rw [List.mem_filter]
      constructor
      · rintro ⟨h1, h2⟩
        exact Or.inl ⟨h1, h2⟩
      · rintro (⟨h1, h2⟩ | h1)
        · exact ⟨h1, h2⟩
        · rw [List.mem_filter] at ht
          rw [h1]
          exact ht
    · simp only [if_neg ht]
      rw [List.mem_append, List.mem_filter]
      simp only [List.mem_singleton]
  · intro d
    exact (lookup_isSome_iff_mem_keys d (Act.tracker docs)).symm
  · have hnodup : (Act.dates_to_process (Act.tracker docs) t).Nodup := by
      unfold Act.dates_to_process
      exact (List.perm_insertionSort Act.LexLe _).symm.nodup
        (List.nodup_dedup _)
    have hsorted : (Act.dates_to_process (Act.tracker docs) t).Pairwise
        Act.LexLe := by
      unfold Act.dates_to_process
      exact List.sorted_insertionSort Act.LexLe _
    exact hsorted.and hnodup

/-- C6 witness: with open routes on 2025-12-01, 2025-12-03 and
2025-12-05 and logical today 2025-12-04, the processed dates include
2025-12-01 and the forced 2025-12-04 but not 2025-12-05. -/
theorem actualization_dates_spec_witness :
    "2025-12-04".data ∈
      Act.dates_to_process (Act.tracker [acr1, acr2, acr3])
        "2025-12-04".data ∧
    "2025-12-01".data ∈
      Act.dates_to_process (Act.tracker [acr1, acr2, acr3])
        "2025-12-04".data ∧
    "2025-12-05".data ∉
      Act.dates_to_process (Act.tracker [acr1, acr2, acr3])
        "2025-12-04".data := by
  refine ⟨?_, ?_, ?_⟩
  · exact ((actualization_dates_spec [acr1, acr2, acr3]
      "2025-12-04".data).1 "2025-12-04".data).mpr (Or.inr rfl)
  · exact ((actualization_dates_spec [acr1, acr2, acr3]
      "2025-12-04".data).1 "2025-12-01".data).mpr
      (Or.inl ⟨by decide, by decide⟩)
  · intro hmem
    rcases ((actualization_dates_spec [acr1, acr2, acr3]
      "2025-12-04".data).1 "2025-12-05".data).mp hmem with ⟨h1, h2⟩ | h1
    · exact absurd h2 (by decide)
    · exact absurd h1 (by decide)

/-- C7: running the date backfill (and both category backfills) twice
on the same corpus produces no writes on the second pass, the corpus is
unchanged by the second pass, and every document the first pass writes
carries the normalized field afterwards. -/
theorem backfill_second_pass_noop (docs : List EDisp) :
    (BDate.run_pass (BDate.run_pass docs).1).2 = 0 ∧
    (BDate.run_pass (BDate.run_pass docs).1).1 = (BDate.run_pass docs).1 ∧
    (∀ x, BDate.writes x = true →
      (BDate.step x).compromiseDate ≠ FieldV.missing) ∧
    (BTipo.run_pass (BTipo.run_pass docs).1).2 = 0 ∧
    (BTipo.run_pass (BTipo.run_pass docs).1).1 = (BTipo.run_pass docs).1 ∧
    (∀ x, BTipo.writes x = true →
      (BTipo.step x).tipoOrden ≠ FieldV.missing) ∧
    (OTipo.run_pass (OTipo.run_pass docs).1).2 = 0 ∧
    (OTipo.run_pass (OTipo.run_pass docs).1).1 = (OTipo.run_pass docs).1 := by
  refine ⟨?_, ?_, bdate_written_filled, ?_, ?_, btipo_written_filled, ?_, ?_⟩
  · simp only [BDate.run_pass, List.length_eq_zero, List.filter_eq_nil_iff]
    intro a ha
    rcases List.mem_map.mp ha with ⟨b, -, hb⟩
    rw [← hb]
    simp [bdate_writes_false]
  · simp only [BDate.run_pass, List.map_map]
    exact List.map_congr_left (fun a _ => by
      simp only [Function.comp]
      exact bdate_step_of_not_writes (BDate.step a) (bdate_writes_false a))
  · simp only [BTipo.run_pass, List.length_eq_zero, List.filter_eq_nil_iff]
    intro a ha
    rcases List.mem_map.mp ha with ⟨b, -, hb⟩
    rw [← hb]
    simp [btipo_writes_false]
  · simp only [BTipo.run_pass, List.map_map]
    exact List.map_congr_left (fun a _ => by
      simp only [Function.comp]
      exact btipo_step_of_not_writes (BTipo.step a) (btipo_writes_false a))
  · simp only [OTipo.run_pass, List.length_eq_zero, List.filter_eq_nil_iff]
    intro a ha
    rcases List.mem_map.mp ha with ⟨b, -, hb⟩
    rw [← hb]
    simp [otipo_writes_false]
  · simp only [OTipo.run_pass, List.map_map]
    exact List.map_congr_left (fun a _ => by
      simp only [Function.comp]
      exact otipo_step_of_not_writes (OTipo.step a) (otipo_writes_false a))

/-- C7 witness: on a corpus of one dispatch with a valid FECSOLDES tag
the second date-backfill pass writes nothing, and the written document
carries the normalized field. -/
theorem backfill_second_pass_noop_witness :
    (BDate.run_pass (BDate.run_pass [fecsoldesDisp]).1).2 = 0 ∧
    (BDate.step fecsoldesDisp).compromiseDate ≠ FieldV.missing :=
  ⟨(backfill_second_pass_noop [fecsoldesDisp]).1,
   (backfill_second_pass_noop []).2.2.1 fecsoldesDisp (by decide)⟩

/-- C8 amended: the orchestrator category backfill selects dispatches
whose tipo_orden is missing, null, or the empty string, writes the
extracted value when it is truthy, and never rewrites a dispatch whose
tipo_orden holds a non-empty value; the standalone script selects only
dispatches where the field does not exist. -/
theorem tipo_orden_selection_spec :
    (∀ x : EDisp, OTipo.selected x = true ↔
      (x.tipoOrden = FieldV.missing ∨ x.tipoOrden = FieldV.val PyVal.none ∨
       x.tipoOrden = FieldV.val (PyVal.str []))) ∧
    (∀ x : EDisp, OTipo.selected x = true →
      py_truthy (OTipo.extract_tipo_orden x.rawTags) = true →
      (OTipo.step x).tipoOrden =
        FieldV.val (OTipo.extract_tipo_orden x.rawTags)) ∧
    (∀ (x : EDisp) (v : PyVal), x.tipoOrden = FieldV.val v →
      v ≠ PyVal.none → v ≠ PyVal.str [] →
      OTipo.step x = x ∧ OTipo.writes x = false) ∧
    (∀ x : EDisp, BTipo.selected x = true ↔
      (x.tipoOrden = FieldV.missing ∧ x.recent = true)) := by
  refine ⟨?_, ?_, ?_, ?_⟩
  · intro x
    simp [OTipo.selected, or_assoc]
  · intro x hs hv
    simp [OTipo.step, hs, hv]
  · intro x v hx h1 h2
    have hs : OTipo.selected x = false := by
      simp [OTipo.selected, hx, h1, h2]
    constructor
    · simp [OTipo.step, hs]
    · simp [OTipo.writes, hs]
  · intro x
    simp [BTipo.selected]

/-- C8 counterexample: a dispatch whose tipo_orden is a stored null
with an extractable TIPO_ORDEN tag is not selected by the standalone
category backfill script and passes through it unchanged, so the claim
fails on that implementation. -/
theorem tipo_orden_selection_cex :
    tipoNullDisp.tipoOrden = FieldV.val PyVal.none ∧
    BTipo.extract_tipo_orden tipoNullDisp.tags = PyVal.str "VD".data ∧
    BTipo.selected tipoNullDisp = false ∧
    BTipo.step tipoNullDisp = tipoNullDisp := by
  refine ⟨rfl, by decide, by decide, ?_⟩
  have hs : BTipo.selected tipoNullDisp = false := by decide
  simp [BTipo.step, hs]

/-- C8 witness: the orchestrator job selects the null-valued dispatch
and re-attempts extraction, writing the tag value. -/
theorem tipo_orden_selection_spec_witness :
    OTipo.selected tipoNullDisp = true ∧
    (OTipo.step tipoNullDisp).tipoOrden =
      FieldV.val (PyVal.str "VD".data) := by
  have h1 : OTipo.selected tipoNullDisp = true :=
    (tipo_orden_selection_spec.1 tipoNullDisp).mpr (Or.inr (Or.inl rfl))
  refine ⟨h1, ?_⟩
  have h2 := tipo_orden_selection_spec.2.1 tipoNullDisp h1 (by decide)
  rw [h2]
  decide

/-- C9: evaluating the CODCOMU extractors of the CT and sub-status jobs
on a tags list holding a non-dict element raises AttributeError instead
of skipping the element, while the FECSOLDES and TIPO_ORDEN extractors
skip it and return normally; the CT job run aborts on such a
dispatch. -/
theorem codcomu_extractor_raises :
    BCt.extract_codcomu_value (TagsVal.list [TagEntry.nondict]) =
      .error .attrError ∧
    BSub.extract_codcomu_value (TagsVal.list [TagEntry.nondict]) =
      .error .attrError ∧
    BCt.extract_codcomu_value (TagsVal.list
      [TagEntry.nondict,
       TagEntry.dict (PyVal.str "CODCOMU".data) PyVal.none
         (PyVal.str "5".data) PyVal.none]) = .error .attrError ∧
    BDate.extract_fecsoldes (TagsVal.list [TagEntry.nondict]) = PyVal.none ∧
    BTipo.extract_tipo_orden (TagsVal.list [TagEntry.nondict]) =
      PyVal.none ∧
    BCt.run_step []
      ⟨TagsVal.list [TagEntry.nondict], TagsVal.list [TagEntry.nondict],
       FieldV.missing, FieldV.missing, true⟩ = .error .attrError :=
  ⟨rfl, rfl, rfl, rfl, rfl, rfl⟩

/-- C10 amended: the dispatches fetch script never raises on a non-2xx
response; it logs the error, stops paginating, returns normally and
exits 0, so a run_jobs sequence continues past it; run_command itself
raises exactly on a nonzero exit code. -/
theorem fetch_error_no_abort :
    (∀ resps : List Fetch.ApiResp, ∃ saved eflag,
      Fetch.fetch_dispatches_by_dates resps = .ok (saved, eflag)) ∧
    (∀ s rest, Fetch.fetch_pages (Fetch.ApiResp.httpErr s :: rest) =
      ([], true)) ∧
    (∀ resps : List Fetch.ApiResp,
      Fetch.script_exit (Fetch.fetch_dispatches_by_dates resps) = 0) ∧
    (∀ c, RunJobs.run_command c = .ok () ↔ c = 0) ∧
    (∀ (resps : List Fetch.ApiResp) (rest : List Nat),
      (RunJobs.main_seq
        (Fetch.script_exit (Fetch.fetch_dispatches_by_dates resps) ::
          rest)).1 = (RunJobs.main_seq rest).1 + 1) := by
  refine ⟨?_, ?_, ?_, ?_, ?_⟩
  · intro resps
    exact ⟨(Fetch.fetch_pages resps).1, (Fetch.fetch_pages resps).2, rfl⟩
  · intro s rest
    rfl
  · intro resps
    rfl
  · intro c
    constructor
    · intro h
      by_contra hc
      simp [RunJobs.run_command, hc] at h
    · intro h
      simp [RunJobs.run_command, h]
  · intro resps rest
    rfl

/-- C10 counterexample: a 500 response on the first page makes the
fetch return normally with exit code 0, and a five-command job sequence
starting with that fetch runs all five commands - the failure neither
propagates nor aborts the run. -/
theorem fetch_error_no_abort_cex :
    Fetch.fetch_dispatches_by_dates [Fetch.ApiResp.httpErr 500] =
      .ok ([], true) ∧
    Fetch.script_exit
      (Fetch.fetch_dispatches_by_dates [Fetch.ApiResp.httpErr 500]) = 0 ∧
    (RunJobs.main_seq
      [Fetch.script_exit
        (Fetch.fetch_dispatches_by_dates [Fetch.ApiResp.httpErr 500]),
       0, 0, 0, 0]) = (5, none) :=
  ⟨rfl, rfl, rfl⟩

/-- C10 witness: the amended statement applied to a concrete 503
response and a failing command. -/
theorem fetch_error_no_abort_witness :
    Fetch.script_exit
      (Fetch.fetch_dispatches_by_dates [Fetch.ApiResp.httpErr 503]) = 0 ∧
    (RunJobs.run_command 1 = .ok () ↔ (1 : Nat) = 0) :=
  ⟨fetch_error_no_abort.2.2.1 [Fetch.ApiResp.httpErr 503],
   fetch_error_no_abort.2.2.2.1 1⟩

end Reports
